import Mathlib

/-!
# Verification of the SME financial-health pipeline (`src/backend/main.py`)

A shallow embedding of the classification-and-scoring pipeline:
`upload_file` (dataset classification, amount normalization, cash-flow
summarization), `health_score`, and `creditworthiness`. Monetary values are
modelled as exact rationals (`ℚ`); a raw cell is modelled by the result of
pandas numeric coercion (`some q` when the cell parses as the number `q`,
`none` when it is missing or unparsable). Python's `round(x, 2)` is modelled
by round-half-to-even at two decimal places.
-/

/-- A cell as seen by `pd.to_numeric(..., errors="coerce")`: `some q` when the
raw value parses as the number `q`, `none` when it is missing or unparsable. -/
abbrev Cell := Option ℚ

/-- A row maps column names to cells. -/
abbrev Row := String → Cell

/-- `pd.to_numeric(..., errors="coerce").fillna(0)`: unparsable or missing
cells become exactly `0`. -/
def toNum (c : Cell) : ℚ := c.getD 0

/-- A parsed CSV table: the header columns as uploaded, and the data rows. -/
structure RawTable where
  columns : List String
  rows : List Row

/-- ASCII case-folding of one character, as Python's `str.lower` acts on the
ASCII range (column headers in this domain are ASCII). -/
def lowerChar (c : Char) : Char :=
  if 'A' ≤ c ∧ c ≤ 'Z' then Char.ofNat (c.toNat + 32) else c

/-- Python's `str.strip`: drop whitespace from both ends of the character
list. -/
def trimChars (l : List Char) : List Char :=
  ((l.dropWhile Char.isWhitespace).reverse.dropWhile Char.isWhitespace).reverse

/-- `c.lower().strip()` applied to one column name. -/
def normName (s : String) : String :=
  ⟨trimChars (s.data.map lowerChar)⟩

/-- Line 16: `df.columns = [c.lower().strip() for c in df.columns]`. -/
def normCols (t : RawTable) : List String :=
  t.columns.map normName

/-- Line 19: `market_columns = {"open", "high", "low", "close"}`. -/
def marketColumns : List String := ["open", "high", "low", "close"]

/-- Line 43: `possible_amount_cols = ["amount", "value", "transaction_amount"]`. -/
def possible_amount_cols : List String := ["amount", "value", "transaction_amount"]

/-- The four terminal shapes of the column-set classification. -/
inductive DatasetKind where
  | marketData
  | ledger
  | singleAmount (col : String)
  | unsupported
deriving DecidableEq

/-- The classification decision of `upload_file` (lines 18-44): OHLC subset
first, then debit and credit, then the first present amount-like column,
else unsupported. -/
def classify (cols : List String) : DatasetKind :=
  if ∀ c ∈ marketColumns, c ∈ cols then .marketData
  else if "debit" ∈ cols ∧ "credit" ∈ cols then .ledger
  else
    match possible_amount_cols.find? (fun c => decide (c ∈ cols)) with
    | some c => .singleAmount c
    | none => .unsupported

/-- Lines 37-39: `amount = credit - debit` per row, coercing failures to 0. -/
def ledgerAmounts (t : RawTable) : List ℚ :=
  t.rows.map fun r => toNum (r "credit") - toNum (r "debit")

/-- Line 56: `amount` taken directly from the matched column, failures to 0. -/
def singleAmounts (t : RawTable) (col : String) : List ℚ :=
  t.rows.map fun r => toNum (r col)

/-- Line 59: `total_revenue = df[df["amount"] > 0]["amount"].sum()`. -/
def total_revenue (amts : List ℚ) : ℚ :=
  (amts.filter fun a => decide (0 < a)).sum

/-- Line 60: `total_expense = abs(df[df["amount"] < 0]["amount"].sum())`. -/
def total_expense (amts : List ℚ) : ℚ :=
  |(amts.filter fun a => decide (a < 0)).sum|

/-- Line 61: `net_cashflow = total_revenue - total_expense`. -/
def net_cashflow (amts : List ℚ) : ℚ :=
  total_revenue amts - total_expense amts

/-- Lines 63-67: the risk flags, in append order. -/
def riskFlags (amts : List ℚ) : List String :=
  (if total_expense amts > total_revenue amts * (8 / 10) then
    ["High expense ratio"] else []) ++
  (if net_cashflow amts < 0 then ["Negative cash flow"] else [])

/-- Round half to even (banker's rounding), the tie-breaking rule of Python's
built-in `round`. -/
def rhe (q : ℚ) : ℤ :=
  if q - ⌊q⌋ < 1 / 2 then ⌊q⌋
  else if 1 / 2 < q - ⌊q⌋ then ⌊q⌋ + 1
  else if 2 ∣ ⌊q⌋ then ⌊q⌋ else ⌊q⌋ + 1

/-- Python's `round(x, 2)`: round half to even at two decimal places. -/
def round2 (q : ℚ) : ℚ := (rhe (q * 100) : ℚ) / 100

/-- Lines 22-33: the informational market-data response body. -/
def marketMessage : String :=
  "This file appears to be trading/market data (OHLC). Financial health " ++
  "analysis is designed for SME cash flow, bank statements, or expense data."

/-- Lines 28-31: the market-data suggestion text. -/
def marketSuggestion : String :=
  "Please upload a bank statement, expense sheet, or transaction CSV for " ++
  "financial health assessment."

/-- Lines 49-52: the unsupported-dataset message text. -/
def unsupportedMessage : String :=
  "No financial amount columns found. This platform supports SME financial data."

/-- The three response shapes of the `/upload` endpoint. -/
inductive UploadResult where
  | marketData (message suggestion : String) (detected_columns : List String)
  | unsupported (message : String) (available_columns : List String)
  | smeFinancial (total_revenue total_expense net_cashflow : ℚ)
      (risk_flags : List String)
deriving DecidableEq

/-- Lines 69-75: the `sme_financial` response, each monetary output rounded
to 2 decimal places at the boundary, flags computed on unrounded totals. -/
def summarizeResp (amts : List ℚ) : UploadResult :=
  .smeFinancial (round2 (total_revenue amts)) (round2 (total_expense amts))
    (round2 (net_cashflow amts)) (riskFlags amts)

/-- The `/upload` pipeline (lines 15-75) on a parsed table: normalize column
names, classify, normalize amounts, summarize. -/
def upload_file (t : RawTable) : UploadResult :=
  match classify (normCols t) with
  | .marketData => .marketData marketMessage marketSuggestion (normCols t)
  | .ledger => summarizeResp (ledgerAmounts t)
  | .singleAmount c => summarizeResp (singleAmounts t c)
  | .unsupported => .unsupported unsupportedMessage (normCols t)

/-- Line 127 (and 125-126): `expense_ratio = total_expense / total_revenue`
when `total_revenue > 0`, else 0. -/
def expense_ratio (rev exp : ℚ) : ℚ :=
  if rev > 0 then exp / rev else 0

/-- Lines 122-123: the -40 deduction when net cash flow is negative. -/
def cashflowDeduction (ncf : ℚ) : ℤ :=
  if ncf < 0 then 40 else 0

/-- Lines 129-132: the banded expense-ratio deduction (-30 / -15 / 0). -/
def ratioDeduction (q : ℚ) : ℤ :=
  if q > 8 / 10 then 30 else if q > 6 / 10 then 15 else 0

/-- Lines 134-135: the -20 deduction for the NegativeCashFlow risk flag. -/
def flagDeduction (flags : List String) : ℤ :=
  if "Negative cash flow" ∈ flags then 20 else 0

/-- The health score before the clamp at 0 (lines 120-135): start at 100 and
apply the three deductions. -/
def health_score_raw (rev exp ncf : ℚ) (flags : List String) : ℤ :=
  100 - cashflowDeduction ncf - ratioDeduction (expense_ratio rev exp)
    - flagDeduction flags

/-- Lines 140-145: the three-tier status label. -/
def health_label (s : ℤ) : String :=
  if s ≥ 80 then "Healthy" else if s ≥ 50 then "Moderate" else "At Risk"

/-- The `/health-score` endpoint (lines 118-150): deductions, clamp at 0,
label. Returns (financial_health_score, status). -/
def health_score (rev exp ncf : ℚ) (flags : List String) : ℤ × String :=
  let s := health_score_raw rev exp ncf flags
  let s := if s < 0 then 0 else s
  (s, health_label s)

/-- The `/creditworthiness` endpoint (lines 156-171).
Returns (credit_status, explanation). -/
def creditworthiness (score : ℤ) (ncf : ℚ) : String × String :=
  if score ≥ 75 ∧ ncf > 0 then
    ("Credit Ready", "Strong financial health and positive cash flow.")
  else if score ≥ 50 then
    ("Caution", "Moderate financial health. Credit possible with conditions.")
  else
    ("High Risk", "Weak financial indicators or negative cash flow.")

/-! ## Concrete sample tables -/

/-- A row of a single-amount table: the `amount` cell holds `q`. -/
def amountRow (q : Cell) : Row :=
  fun c => if c = "amount" then q else none

/-- A row of a ledger table with the given `debit` and `credit` cells. -/
def ledgerRow (d c : Cell) : Row :=
  fun col => if col = "debit" then d else if col = "credit" then c else none

/-- OHLC columns together with ledger-like and amount-like columns. -/
def marketTable : RawTable :=
  ⟨["Open", "High", "Low", "Close", "Debit", "Credit", "Amount"], []⟩

/-- The spec scenario ledger: rows (debit 0, credit 1000), (debit 300, credit 0). -/
def ledgerTable : RawTable :=
  ⟨["Debit", "Credit"], [ledgerRow (some 0) (some 1000), ledgerRow (some 300) (some 0)]⟩

/-- A table with `value` and `transaction_amount` columns but no `amount`. -/
def valueTable : RawTable :=
  ⟨["Value", "Transaction_Amount"], []⟩

/-- A table with no recognized columns at all. -/
def plainTable : RawTable :=
  ⟨["Category", "Notes"], []⟩

/-- Amounts 3/8 = 0.375 and -1/8 = -0.125: both exactly representable in
binary floating point, and both ties at the second decimal place. -/
def roundingTable : RawTable :=
  ⟨["amount"], [amountRow (some (3 / 8)), amountRow (some (-(1 / 8)))]⟩

/-- A single-amount table whose only transaction is an expense of 5. -/
def negTable : RawTable :=
  ⟨["Amount"], [amountRow (some (-5))]⟩

/-! ## Helper lemmas -/

lemma classify_market {cols : List String} (h : ∀ c ∈ marketColumns, c ∈ cols) :
    classify cols = .marketData := by
  unfold classify; rw [if_pos h]

lemma classify_ledger {cols : List String} (hm : ¬ ∀ c ∈ marketColumns, c ∈ cols)
    (hd : "debit" ∈ cols) (hc : "credit" ∈ cols) : classify cols = .ledger := by
  unfold classify; rw [if_neg hm, if_pos ⟨hd, hc⟩]

lemma upload_file_market {t : RawTable} (h : classify (normCols t) = .marketData) :
    upload_file t = .marketData marketMessage marketSuggestion (normCols t) := by
  unfold upload_file; rw [h]

lemma upload_file_ledger {t : RawTable} (h : classify (normCols t) = .ledger) :
    upload_file t = summarizeResp (ledgerAmounts t) := by
  unfold upload_file; rw [h]

lemma upload_file_single {t : RawTable} {c : String}
    (h : classify (normCols t) = .singleAmount c) :
    upload_file t = summarizeResp (singleAmounts t c) := by
  unfold upload_file; rw [h]

lemma upload_file_unsupported {t : RawTable} (h : classify (normCols t) = .unsupported) :
    upload_file t = .unsupported unsupportedMessage (normCols t) := by
  unfold upload_file; rw [h]

lemma upload_sme_inv (t : RawTable) (r e n : ℚ) (flags : List String)
    (h : upload_file t = .smeFinancial r e n flags) :
    ∃ amts : List ℚ, r = round2 (total_revenue amts) ∧ e = round2 (total_expense amts) ∧
      n = round2 (net_cashflow amts) ∧ flags = riskFlags amts := by
  unfold upload_file at h
  cases hc : classify (normCols t) <;> rw [hc] at h
  case marketData => simp at h
  case ledger =>
    unfold summarizeResp at h
    injection h with h1 h2 h3 h4
    exact ⟨ledgerAmounts t, h1.symm, h2.symm, h3.symm, h4.symm⟩
  case singleAmount c =>
    unfold summarizeResp at h
    injection h with h1 h2 h3 h4
    exact ⟨singleAmounts t c, h1.symm, h2.symm, h3.symm, h4.symm⟩
  case unsupported => simp at h

lemma high_flag_mem_iff (amts : List ℚ) :
    "High expense ratio" ∈ riskFlags amts ↔
      total_expense amts > total_revenue amts * (8 / 10) := by
  unfold riskFlags
  by_cases h1 : total_expense amts > total_revenue amts * (8 / 10) <;>
    by_cases h2 : net_cashflow amts < 0 <;> simp [h1, h2]

lemma neg_flag_mem_iff (amts : List ℚ) :
    "Negative cash flow" ∈ riskFlags amts ↔ net_cashflow amts < 0 := by
  unfold riskFlags
  by_cases h1 : total_expense amts > total_revenue amts * (8 / 10) <;>
    by_cases h2 : net_cashflow amts < 0 <;> simp [h1, h2]

lemma rhe_nonneg {q : ℚ} (h : 0 ≤ q) : 0 ≤ rhe q := by
  have hf : (0 : ℤ) ≤ ⌊q⌋ := Int.floor_nonneg.mpr h
  unfold rhe; split_ifs <;> omega

lemma round2_nonneg {q : ℚ} (h : 0 ≤ q) : 0 ≤ round2 q := by
  unfold round2
  have h1 : (0 : ℤ) ≤ rhe (q * 100) := rhe_nonneg (by linarith)
  exact div_nonneg (by exact_mod_cast h1) (by norm_num)

lemma neg_of_round2_neg {q : ℚ} (h : round2 q < 0) : q < 0 := by
  by_contra hq
  exact absurd h (not_lt.mpr (round2_nonneg (not_lt.mp hq)))

lemma round2_intCast (z : ℤ) : round2 (z : ℚ) = z := by
  have h100 : ((z : ℚ)) * 100 = ((z * 100 : ℤ) : ℚ) := by push_cast; ring
  have hf : ⌊(z : ℚ) * 100⌋ = z * 100 := by rw [h100, Int.floor_intCast]
  unfold round2 rhe
  rw [hf]
  rw [h100]
  norm_num

lemma round2_zero : round2 0 = 0 := by
  simpa using round2_intCast 0

lemma round2_five : round2 5 = 5 := by
  simpa using round2_intCast 5

lemma round2_neg_five : round2 (-5) = -5 := by
  simpa using round2_intCast (-5)

lemma round2_three_eighths : round2 (3 / 8) = 38 / 100 := by
  have hf : ⌊(3 / 8 : ℚ) * 100⌋ = 37 := by rw [Int.floor_eq_iff]; norm_num
  unfold round2 rhe
  rw [hf]
  norm_num

lemma round2_one_eighth : round2 (1 / 8) = 12 / 100 := by
  have hf : ⌊(1 / 8 : ℚ) * 100⌋ = 12 := by rw [Int.floor_eq_iff]; norm_num
  unfold round2 rhe
  rw [hf]
  norm_num

lemma round2_one_quarter : round2 (1 / 4) = 25 / 100 := by
  have hf : ⌊(1 / 4 : ℚ) * 100⌋ = 25 := by rw [Int.floor_eq_iff]; norm_num
  unfold round2 rhe
  rw [hf]
  norm_num

lemma cashflowDeduction_bounds (n : ℚ) :
    0 ≤ cashflowDeduction n ∧ cashflowDeduction n ≤ 40 := by
  unfold cashflowDeduction; split <;> omega

lemma ratioDeduction_bounds (q : ℚ) :
    0 ≤ ratioDeduction q ∧ ratioDeduction q ≤ 30 := by
  unfold ratioDeduction; split_ifs <;> omega

lemma flagDeduction_bounds (flags : List String) :
    0 ≤ flagDeduction flags ∧ flagDeduction flags ≤ 20 := by
  unfold flagDeduction; split <;> omega

lemma ratioDeduction_mono {a b : ℚ} (h : a ≤ b) :
    ratioDeduction a ≤ ratioDeduction b := by
  unfold ratioDeduction
  split_ifs <;> first | omega | (exfalso; linarith)

lemma health_score_fst (rev exp ncf : ℚ) (flags : List String) :
    (health_score rev exp ncf flags).1 =
      if health_score_raw rev exp ncf flags < 0 then 0
      else health_score_raw rev exp ncf flags := rfl

lemma health_score_raw_bounds (rev exp ncf : ℚ) (flags : List String) :
    10 ≤ health_score_raw rev exp ncf flags ∧
      health_score_raw rev exp ncf flags ≤ 100 := by
  have hc := cashflowDeduction_bounds ncf
  have hr := ratioDeduction_bounds (expense_ratio rev exp)
  have hf := flagDeduction_bounds flags
  unfold health_score_raw
  omega

lemma roundingTable_eval :
    upload_file roundingTable = .smeFinancial (38 / 100) (12 / 100) (25 / 100) [] := by
  have hcl : classify (normCols roundingTable) = .singleAmount "amount" := by decide
  have hamts : singleAmounts roundingTable "amount" = [3 / 8, -(1 / 8)] := rfl
  have hr : total_revenue [3 / 8, -(1 / 8)] = 3 / 8 := by
    norm_num [total_revenue, List.filter_cons]
  have he : total_expense [3 / 8, -(1 / 8)] = 1 / 8 := by
    norm_num [total_expense, List.filter_cons, abs_neg,
      show |(1 : ℚ) / 8| = 1 / 8 from by rw [abs_of_nonneg]; norm_num]
  have hn : net_cashflow [3 / 8, -(1 / 8)] = 1 / 4 := by
    rw [net_cashflow, hr, he]; norm_num
  have hfl : riskFlags [3 / 8, -(1 / 8)] = [] := by
    unfold riskFlags
    rw [hr, he, hn, if_neg (by norm_num), if_neg (by norm_num)]
    rfl
  rw [upload_file_single hcl, hamts]
  unfold summarizeResp
  rw [hr, he, hn, hfl, round2_three_eighths, round2_one_eighth, round2_one_quarter]

lemma negTable_eval :
    upload_file negTable =
      .smeFinancial 0 5 (-5) ["High expense ratio", "Negative cash flow"] := by
  have hcl : classify (normCols negTable) = .singleAmount "amount" := by decide
  have hamts : singleAmounts negTable "amount" = [(-5 : ℚ)] := rfl
  have hr : total_revenue [(-5 : ℚ)] = 0 := by
    norm_num [total_revenue, List.filter_cons]
  have he : total_expense [(-5 : ℚ)] = 5 := by
    norm_num [total_expense, List.filter_cons,
      show |(-5 : ℚ)| = 5 from by rw [abs_of_nonpos] <;> norm_num]
  have hn : net_cashflow [(-5 : ℚ)] = -5 := by
    rw [net_cashflow, hr, he]; norm_num
  have hfl : riskFlags [(-5 : ℚ)] = ["High expense ratio", "Negative cash flow"] := by
    unfold riskFlags
    rw [hr, he, hn, if_pos (by norm_num), if_pos (by norm_num)]
    rfl
  rw [upload_file_single hcl, hamts]
  unfold summarizeResp
  rw [hr, he, hn, hfl, round2_zero, round2_five, round2_neg_five]

/-! ## Claims -/

/-- C2: for every parsed table whose case-folded, trimmed column set contains
all of open, high, low, close, classification is MarketData regardless of any
other columns present, and no financial computation is performed: the
response is the informational market-data message with the detected columns. -/
theorem market_data_precedence (t : RawTable)
    (h : ∀ c ∈ marketColumns, c ∈ normCols t) :
    classify (normCols t) = .marketData ∧
    upload_file t = .marketData marketMessage marketSuggestion (normCols t) := by
  have hcl := classify_market h
  exact ⟨hcl, upload_file_market hcl⟩

/-- Witness for C2: a table with OHLC columns alongside debit, credit and
amount columns is still classified as market data. -/
theorem market_data_precedence_witness :
    classify (normCols marketTable) = .marketData ∧
    upload_file marketTable = .marketData marketMessage marketSuggestion
      ["open", "high", "low", "close", "debit", "credit", "amount"] :=
  market_data_precedence marketTable (by decide)

/-- C3: a table with both debit and credit columns (and not the full OHLC
set) is classified Ledger; normalization yields one amount per row equal to
credit - debit, with unparsable or missing cells contributing exactly 0
(`toNum none = 0`), no row skipped and no error raised. -/
theorem ledger_classification_and_amounts (t : RawTable)
    (hm : ¬ ∀ c ∈ marketColumns, c ∈ normCols t)
    (hd : "debit" ∈ normCols t) (hc : "credit" ∈ normCols t) :
    classify (normCols t) = .ledger ∧
    upload_file t = summarizeResp (ledgerAmounts t) ∧
    ledgerAmounts t = t.rows.map (fun r => toNum (r "credit") - toNum (r "debit")) ∧
    (ledgerAmounts t).length = t.rows.length ∧
    toNum none = 0 := by
  have hcl := classify_ledger hm hd hc
  exact ⟨hcl, upload_file_ledger hcl, rfl, by simp [ledgerAmounts], rfl⟩

/-- Witness for C3: the two-row ledger of the spec scenario. -/
theorem ledger_classification_and_amounts_witness :
    classify (normCols ledgerTable) = .ledger ∧
    upload_file ledgerTable = summarizeResp (ledgerAmounts ledgerTable) ∧
    ledgerAmounts ledgerTable =
      ledgerTable.rows.map (fun r => toNum (r "credit") - toNum (r "debit")) ∧
    (ledgerAmounts ledgerTable).length = ledgerTable.rows.length ∧
    toNum none = 0 :=
  ledger_classification_and_amounts ledgerTable (by decide) (by decide) (by decide)

/-- C4: the summary's risk flags are exactly characterized: HighExpenseRatio
(string "High expense ratio") is present iff total_expense exceeds 0.8 times
total_revenue, NegativeCashFlow (string "Negative cash flow") is present iff
net_cashflow is negative; in particular the first flag is present whenever
total_revenue is 0 and total_expense is positive. -/
theorem risk_flags_iff (amts : List ℚ) :
    ("High expense ratio" ∈ riskFlags amts ↔
      total_expense amts > total_revenue amts * (8 / 10)) ∧
    ("Negative cash flow" ∈ riskFlags amts ↔ net_cashflow amts < 0) ∧
    (total_revenue amts = 0 → 0 < total_expense amts →
      "High expense ratio" ∈ riskFlags amts) := by
  refine ⟨high_flag_mem_iff amts, neg_flag_mem_iff amts, fun h0 hpos => ?_⟩
  exact (high_flag_mem_iff amts).mpr (by rw [h0]; linarith)

/-- Witness for C4: one expense of 5 and no revenue raises the high-expense
flag. -/
theorem risk_flags_iff_witness :
    "High expense ratio" ∈ riskFlags [(-5 : ℚ)] :=
  (risk_flags_iff [(-5 : ℚ)]).2.2
    (by norm_num [total_revenue, List.filter_cons])
    (by norm_num [total_expense, List.filter_cons,
      show |(-5 : ℚ)| = 5 from by rw [abs_of_nonpos] <;> norm_num])

/-- C5: the health score is an integer in [0, 100]; with net cash flow and
flags fixed it is non-increasing in the expense ratio, and with revenue,
expense and flags fixed it is non-increasing when net cash flow moves from
non-negative to negative. -/
theorem health_score_bounds_and_monotone :
    (∀ (rev exp ncf : ℚ) (flags : List String),
      0 ≤ (health_score rev exp ncf flags).1 ∧
        (health_score rev exp ncf flags).1 ≤ 100) ∧
    (∀ (rev₁ exp₁ rev₂ exp₂ ncf : ℚ) (flags : List String),
      expense_ratio rev₁ exp₁ ≤ expense_ratio rev₂ exp₂ →
      (health_score rev₂ exp₂ ncf flags).1 ≤ (health_score rev₁ exp₁ ncf flags).1) ∧
    (∀ (rev exp n₁ n₂ : ℚ) (flags : List String), n₁ < 0 → 0 ≤ n₂ →
      (health_score rev exp n₁ flags).1 ≤ (health_score rev exp n₂ flags).1) := by
  refine ⟨fun rev exp ncf flags => ?_, fun rev₁ exp₁ rev₂ exp₂ ncf flags h => ?_,
    fun rev exp n₁ n₂ flags h1 h2 => ?_⟩
  · have hb := health_score_raw_bounds rev exp ncf flags
    rw [health_score_fst]
    constructor <;> (split <;> omega)
  · have hmono := ratioDeduction_mono h
    rw [health_score_fst, health_score_fst]
    unfold health_score_raw
    split <;> split <;> omega
  · have e1 : cashflowDeduction n₁ = 40 := by unfold cashflowDeduction; exact if_pos h1
    have e2 : cashflowDeduction n₂ = 0 := by
      unfold cashflowDeduction; exact if_neg (not_lt.mpr h2)
    have hr := ratioDeduction_bounds (expense_ratio rev exp)
    have hf := flagDeduction_bounds flags
    rw [health_score_fst, health_score_fst]
    unfold health_score_raw
    rw [e1, e2]
    split <;> split <;> omega

/-- Witness for C5: raising the expense ratio from 0.1 to 0.9 does not raise
the score, and flipping net cash flow negative does not raise the score. -/
theorem health_score_bounds_and_monotone_witness :
    (health_score 10 9 5 []).1 ≤ (health_score 10 1 5 []).1 ∧
    (health_score 10 1 (-1) []).1 ≤ (health_score 10 1 0 []).1 :=
  ⟨health_score_bounds_and_monotone.2.1 10 1 10 9 5 []
      (by norm_num [expense_ratio]),
   health_score_bounds_and_monotone.2.2 10 1 (-1) 0 [] (by norm_num) (by norm_num)⟩

/-- C6: for every summary produced by the summarizer whose reported
net_cashflow is negative, the NegativeCashFlow flag is present, so scoring
applies both the -40 deduction (net_cashflow < 0) and the -20 flag deduction;
the resulting score is 40 minus the expense-ratio deduction, hence at most
40. -/
theorem negative_cashflow_double_deduction (t : RawTable) (r e n : ℚ)
    (flags : List String) (h : upload_file t = .smeFinancial r e n flags)
    (hn : n < 0) :
    "Negative cash flow" ∈ flags ∧
    cashflowDeduction n = 40 ∧ flagDeduction flags = 20 ∧
    (health_score r e n flags).1 = 40 - ratioDeduction (expense_ratio r e) ∧
    (health_score r e n flags).1 ≤ 40 := by
  obtain ⟨amts, hr, he, hnf, hfl⟩ := upload_sme_inv t r e n flags h
  have hneg : net_cashflow amts < 0 := neg_of_round2_neg (hnf ▸ hn)
  have hmem : "Negative cash flow" ∈ flags := by
    rw [hfl]; exact (neg_flag_mem_iff amts).mpr hneg
  have d1 : cashflowDeduction n = 40 := by unfold cashflowDeduction; exact if_pos hn
  have d2 : flagDeduction flags = 20 := by unfold flagDeduction; exact if_pos hmem
  have hb := ratioDeduction_bounds (expense_ratio r e)
  have hfst := health_score_fst r e n flags
  unfold health_score_raw at hfst
  rw [d1, d2] at hfst
  refine ⟨hmem, d1, d2, ?_, ?_⟩
  · rw [hfst, if_neg (by omega)]; omega
  · rw [hfst, if_neg (by omega)]; omega

/-- Witness for C6: the single-expense table reports net_cashflow -5 with
the NegativeCashFlow flag, and both deductions fire. -/
theorem negative_cashflow_double_deduction_witness :
    "Negative cash flow" ∈ ["High expense ratio", "Negative cash flow"] ∧
    cashflowDeduction (-5) = 40 ∧
    flagDeduction ["High expense ratio", "Negative cash flow"] = 20 ∧
    (health_score 0 5 (-5) ["High expense ratio", "Negative cash flow"]).1 =
      40 - ratioDeduction (expense_ratio 0 5) ∧
    (health_score 0 5 (-5) ["High expense ratio", "Negative cash flow"]).1 ≤ 40 :=
  negative_cashflow_double_deduction negTable 0 5 (-5) _ negTable_eval (by norm_num)

/-- C7 counterexample: the code's reasons are capitalized sentences ("Strong
financial health and positive cash flow.", "Moderate financial health. Credit
possible with conditions."), not the lowercase semicolon-joined reasons the
claim states, so the claim's exact reason strings are wrong. -/
theorem creditworthiness_reason_strings_differ :
    creditworthiness 80 1 =
      ("Credit Ready", "Strong financial health and positive cash flow.") ∧
    (creditworthiness 80 1).2 ≠ "strong financial health and positive cash flow." ∧
    creditworthiness 60 1 =
      ("Caution", "Moderate financial health. Credit possible with conditions.") ∧
    (creditworthiness 60 1).2 ≠
      "moderate financial health; credit possible with conditions." := by
  have h80 : creditworthiness 80 1 =
      ("Credit Ready", "Strong financial health and positive cash flow.") := by
    unfold creditworthiness
    rw [if_pos ⟨by norm_num, by norm_num⟩]
  have h60 : creditworthiness 60 1 =
      ("Caution", "Moderate financial health. Credit possible with conditions.") := by
    unfold creditworthiness
    rw [if_neg (by rintro ⟨h, -⟩; omega), if_pos (by norm_num)]
  refine ⟨h80, by rw [h80]; decide, h60, by rw [h60]; decide⟩

/-- C7 (amended): the creditworthiness thresholds are evaluated in fixed
order with first match winning — score ≥ 75 and positive net cash flow gives
Credit Ready, otherwise score ≥ 50 gives Caution, otherwise High Risk — with
the code's exact reason strings. -/
theorem creditworthiness_order (s : ℤ) (n : ℚ) :
    (s ≥ 75 ∧ n > 0 →
      creditworthiness s n =
        ("Credit Ready", "Strong financial health and positive cash flow.")) ∧
    (¬ (s ≥ 75 ∧ n > 0) → s ≥ 50 →
      creditworthiness s n =
        ("Caution", "Moderate financial health. Credit possible with conditions.")) ∧
    (¬ (s ≥ 75 ∧ n > 0) → ¬ s ≥ 50 →
      creditworthiness s n =
        ("High Risk", "Weak financial indicators or negative cash flow.")) := by
  unfold creditworthiness
  exact ⟨fun h => by rw [if_pos h],
    fun h1 h2 => by rw [if_neg h1, if_pos h2],
    fun h1 h2 => by rw [if_neg h1, if_neg h2]⟩

/-- Witness for C7: the three tiers at scores 80, 60 and 40. -/
theorem creditworthiness_order_witness :
    creditworthiness 80 1 =
      ("Credit Ready", "Strong financial health and positive cash flow.") ∧
    creditworthiness 60 1 =
      ("Caution", "Moderate financial health. Credit possible with conditions.") ∧
    creditworthiness 40 1 =
      ("High Risk", "Weak financial indicators or negative cash flow.") :=
  ⟨(creditworthiness_order 80 1).1 ⟨by norm_num, by norm_num⟩,
   (creditworthiness_order 60 1).2.1 (by rintro ⟨h, -⟩; omega) (by norm_num),
   (creditworthiness_order 40 1).2.2 (by rintro ⟨h, -⟩; omega) (by omega)⟩

/-- C8: a table with no OHLC set and not both debit and credit, but with one
of amount, value, transaction_amount present, is classified SingleAmount on
the first matching column in that priority order; each row's amount is that
column's value with unparsable cells becoming 0, taken directly with no sign
inversion, one amount per row. -/
theorem single_amount_priority (t : RawTable) (c : String)
    (hm : ¬ ∀ col ∈ marketColumns, col ∈ normCols t)
    (hdc : ¬ ("debit" ∈ normCols t ∧ "credit" ∈ normCols t))
    (hsel : c = if "amount" ∈ normCols t then "amount"
      else if "value" ∈ normCols t then "value" else "transaction_amount")
    (hmem : c ∈ normCols t) :
    classify (normCols t) = .singleAmount c ∧
    upload_file t = summarizeResp (singleAmounts t c) ∧
    singleAmounts t c = t.rows.map (fun r => toNum (r c)) ∧
    (singleAmounts t c).length = t.rows.length := by
  have hfind : possible_amount_cols.find? (fun x => decide (x ∈ normCols t)) = some c := by
    unfold possible_amount_cols
    by_cases h1 : "amount" ∈ normCols t
    · rw [if_pos h1] at hsel; subst hsel
      exact List.find?_cons_of_pos _ (by simpa)
    · rw [if_neg h1] at hsel
      rw [List.find?_cons_of_neg _ (by simpa)]
      by_cases h2 : "value" ∈ normCols t
      · rw [if_pos h2] at hsel; subst hsel
        exact List.find?_cons_of_pos _ (by simpa)
      · rw [if_neg h2] at hsel; subst hsel
        rw [List.find?_cons_of_neg _ (by simpa)]
        exact List.find?_cons_of_pos _ (by simpa using hmem)
  have hcl : classify (normCols t) = .singleAmount c := by
    unfold classify
    rw [if_neg hm, if_neg hdc, hfind]
  exact ⟨hcl, upload_file_single hcl, rfl, by simp [singleAmounts]⟩

/-- Witness for C8: a table with value and transaction_amount columns picks
value, the earlier name in the priority order. -/
theorem single_amount_priority_witness :
    classify (normCols valueTable) = .singleAmount "value" ∧
    upload_file valueTable = summarizeResp (singleAmounts valueTable "value") ∧
    singleAmounts valueTable "value" =
      valueTable.rows.map (fun r => toNum (r "value")) ∧
    (singleAmounts valueTable "value").length = valueTable.rows.length :=
  single_amount_priority valueTable "value" (by decide) (by decide) (by decide) (by decide)

/-- C9 counterexample: on a table with columns ["Category", "Notes"] the
unsupported response carries the case-folded column list
["category", "notes"], not the original column list of the table. -/
theorem unsupported_columns_not_original :
    upload_file plainTable = .unsupported unsupportedMessage ["category", "notes"] ∧
    plainTable.columns = ["Category", "Notes"] ∧
    (["category", "notes"] : List String) ≠ plainTable.columns := by
  have hcl : classify (normCols plainTable) = .unsupported := by decide
  exact ⟨upload_file_unsupported hcl, rfl, by decide⟩

/-- C9 (amended): a table containing none of the recognized column sets gets
the Unsupported classification — a normal response, not a raised failure —
carrying the full column list of the table in original order with each name
case-folded and trimmed. -/
theorem unsupported_returns_normalized_columns (t : RawTable)
    (hm : ¬ ∀ c ∈ marketColumns, c ∈ normCols t)
    (hdc : ¬ ("debit" ∈ normCols t ∧ "credit" ∈ normCols t))
    (hno : ∀ c ∈ possible_amount_cols, c ∉ normCols t) :
    classify (normCols t) = .unsupported ∧
    upload_file t = .unsupported unsupportedMessage (normCols t) ∧
    normCols t = t.columns.map normName ∧
    (normCols t).length = t.columns.length := by
  have hfind : possible_amount_cols.find? (fun x => decide (x ∈ normCols t)) = none :=
    List.find?_eq_none.mpr (fun x hx => by simpa using hno x hx)
  have hcl : classify (normCols t) = .unsupported := by
    unfold classify
    rw [if_neg hm, if_neg hdc, hfind]
  exact ⟨hcl, upload_file_unsupported hcl, rfl, by simp [normCols]⟩

/-- Witness for C9: the table with columns ["Category", "Notes"]. -/
theorem unsupported_returns_normalized_columns_witness :
    classify (normCols plainTable) = .unsupported ∧
    upload_file plainTable = .unsupported unsupportedMessage (normCols plainTable) ∧
    normCols plainTable = plainTable.columns.map normName ∧
    (normCols plainTable).length = plainTable.columns.length :=
  unsupported_returns_normalized_columns plainTable (by decide) (by decide) (by decide)

/-- C10: the pre-clamp score is always at least 10 (deductions total at most
40 + 30 + 20 = 90 from 100), so the clamp-to-0 branch is unreachable and the
returned score is always at least 10. -/
theorem health_score_min_ten (rev exp ncf : ℚ) (flags : List String) :
    10 ≤ health_score_raw rev exp ncf flags ∧
    (health_score rev exp ncf flags).1 = health_score_raw rev exp ncf flags ∧
    10 ≤ (health_score rev exp ncf flags).1 := by
  have hb := health_score_raw_bounds rev exp ncf flags
  have heq : (health_score rev exp ncf flags).1 = health_score_raw rev exp ncf flags := by
    rw [health_score_fst, if_neg (by omega)]
  exact ⟨hb.1, heq, heq ▸ hb.1⟩

/-- C1 counterexample: revenue 0.375 and expense 0.125 (net 0.25) report as
0.38, 0.12 and 0.25 after independent rounding, and 0.38 - 0.12 ≠ 0.25: the
identity fails on the rounded outputs. -/
theorem rounded_outputs_break_identity :
    upload_file roundingTable = .smeFinancial (38 / 100) (12 / 100) (25 / 100) [] ∧
    (38 / 100 : ℚ) - 12 / 100 ≠ 25 / 100 :=
  ⟨roundingTable_eval, by norm_num⟩

/-- C1 (amended): for every table that reaches summarization the identity
holds exactly on the unrounded aggregates — net_cashflow is computed as
total_revenue - total_expense before rounding — and the reported net_cashflow
is the rounding of that exact difference; the three independently rounded
outputs themselves need not satisfy the identity. -/
theorem net_identity_before_rounding (t : RawTable) (r e n : ℚ)
    (flags : List String) (h : upload_file t = .smeFinancial r e n flags) :
    ∃ amts : List ℚ,
      net_cashflow amts = total_revenue amts - total_expense amts ∧
      r = round2 (total_revenue amts) ∧ e = round2 (total_expense amts) ∧
      n = round2 (total_revenue amts - total_expense amts) := by
  obtain ⟨amts, hr, he, hn, -⟩ := upload_sme_inv t r e n flags h
  exact ⟨amts, rfl, hr, he, by rw [hn]; rfl⟩

/-- Witness for C1: the rounding table's reported values are the roundings
of its exact aggregates. -/
theorem net_identity_before_rounding_witness :
    ∃ amts : List ℚ,
      net_cashflow amts = total_revenue amts - total_expense amts ∧
      (38 / 100 : ℚ) = round2 (total_revenue amts) ∧
      (12 / 100 : ℚ) = round2 (total_expense amts) ∧
      (25 / 100 : ℚ) = round2 (total_revenue amts - total_expense amts) :=
  net_identity_before_rounding roundingTable _ _ _ _ roundingTable_eval
